import Mathlib

/-!
Shallow embedding of `imessage.py`, the message reconciliation pipeline of
the iMessage analysis repository.

A pandas `DataFrame` is modelled as a `List Row` in row order.  The pandas
integer index plays no role in the pipeline beyond row order, which the
list preserves.  Missing values (`NaN` / `None`) are modelled with
`Option`.  The in-place column assignment
`df.loc[mask, "reaction_type"] = values` is modelled by walking the list
and stamping the values positionally onto the rows selected by the mask,
exactly as pandas does; pandas raises a `ValueError` when the number of
selected rows differs from the number of supplied values, which the
embedding models by returning `none`.
-/

/-- One row of the message table, with the columns produced by the loader
query of `load_data`.  `is_from_me` and `is_sms` are the 0/1 integer flags
produced by the query; `text`, `body`, `thread_guid` and `reaction_guid`
are nullable columns.  `body` holds the textual content of the
`attributedBody` blob after a `decode("utf-8", errors="replace")`, which is
total, so a present blob is modelled as `some` string. -/
structure Row where
  id : Int
  guid : String
  thread_guid : Option String
  date : String
  body : Option String
  text : Option String
  is_from_me : Nat
  is_sms : Nat
  reaction_guid : Option String
  reaction_type : Int
  deriving DecidableEq, Repr

/-- Helper for `drop_duplicates`.  `seen` holds the guids of every row
already scanned: pandas `Series.duplicated()` (default `keep.eq.first`)
marks an occurrence after the first, computed on the full input before any
drop, so dropped rows still count as seen for later rows. -/
def dropDupAux (seen : List String) : List Row → List Row
  | [] => []
  | r :: rs =>
    if r.guid ∈ seen ∧ r.is_sms = 1 then dropDupAux (r.guid :: seen) rs
    else r :: dropDupAux (r.guid :: seen) rs

/-- `drop_duplicates(df)`: drop the rows where `df["guid"].duplicated()`
holds and `is_sms == 1`. -/
def drop_duplicates (df : List Row) : List Row :=
  dropDupAux [] df

/-- Projection of a candidate reaction row onto the three columns
`["guid", "reaction_guid", "reaction_type"]` kept by the `reactions`
selection inside `update_reactions`; `reaction_guid` is a plain `String`
because the selection keeps exactly the rows where it is non-absent. -/
structure RRow where
  guid : String
  reaction_guid : String
  reaction_type : Int
  deriving DecidableEq, Repr

/-- `reactions = df[df["reaction_guid"].notna()][["guid", "reaction_guid",
"reaction_type"]]`. -/
def reactions (df : List Row) : List RRow :=
  df.filterMap fun r =>
    match r.reaction_guid with
    | some rg => some ⟨r.guid, rg, r.reaction_type⟩
    | none => none

/-- `to_remove = reactions["guid"]`. -/
def to_remove (df : List Row) : List String :=
  (reactions df).map (·.guid)

/-- `self_reactions`: the rows whose `guid` is the `reaction_guid` of some
row with `reaction_type > 1000` and `is_from_me == 1`, and which are
themselves `is_from_me == 1`.  The inner column may contain absent
`reaction_guid` values; a `guid` (a string) never equals an absent value,
matching pandas `isin` over a column containing `NaN`. -/
def self_reactions (df : List Row) : List Row :=
  df.filter fun r =>
    (((df.filter fun s => s.reaction_type > 1000 && s.is_from_me == 1).map
        (·.reaction_guid)).contains (some r.guid))
      && r.is_from_me == 1

/-- `out_reactions`: candidates with `2000 <= reaction_type < 3000` whose
`reaction_guid` is not among the `self_reactions` guids. -/
def out_reactions (df : List Row) : List RRow :=
  (reactions df).filter fun r =>
    (2000 ≤ r.reaction_type && r.reaction_type < 3000)
      && !((self_reactions df).map (·.guid)).contains r.reaction_guid

/-- `a = df[df["guid"].isin(out_reactions["guid"])]`. -/
def a_rows (df : List Row) : List Row :=
  df.filter fun r => ((out_reactions df).map (·.guid)).contains r.guid

/-- `b = df[df["guid"].isin(out_reactions["reaction_guid"])]`. -/
def b_rows (df : List Row) : List Row :=
  df.filter fun r => ((out_reactions df).map (·.reaction_guid)).contains r.guid

/-- `text_message_reactions = a[~a["reaction_guid"].isin(b["guid"])]` —
the "un-linkable" rows.  An absent `reaction_guid` is never `isin` a list
of strings, so the negation keeps such a row. -/
def text_message_reactions (df : List Row) : List Row :=
  (a_rows df).filter fun r =>
    match r.reaction_guid with
    | some rg => !((b_rows df).map (·.guid)).contains rg
    | none => true

/-- `main_reactions = out_reactions[~out_reactions["guid"].isin(
text_message_reactions["guid"])][["reaction_guid", "reaction_type"]]`. -/
def main_reactions (df : List Row) : List (String × Int) :=
  ((out_reactions df).filter fun r =>
      !((text_message_reactions df).map (·.guid)).contains r.guid).map
    fun r => (r.reaction_guid, r.reaction_type)

/-- Positional stamping of `vals` onto the rows selected by
`rgs.contains guid`, in row order: the i-th selected row receives the i-th
value, which is how pandas aligns a raw `.values` array with a boolean
mask in `df.loc[mask, "reaction_type"] = values`.  Only invoked when the
number of selected rows equals `vals.length` (otherwise pandas raises); if
`vals` runs out the row is kept unchanged, a case that never arises under
that length condition. -/
def assignVals : List Row → List String → List Int → List Row
  | [], _, _ => []
  | r :: rs, rgs, vals =>
    if rgs.contains r.guid then
      match vals with
      | v :: vs => { r with reaction_type := v } :: assignVals rs rgs vs
      | [] => r :: assignVals rs rgs []
    else r :: assignVals rs rgs vals

/-- `update_reactions(df)`: stamp each main reaction's `reaction_type` onto
the rows whose `guid` is among the main reactions' `reaction_guid` values
(positionally, as pandas does), then drop every row whose `guid` is in
`to_remove`.  Returns `none` when the positional assignment is
length-mismatched, where pandas raises a `ValueError` instead of returning
a table. -/
def update_reactions (df : List Row) : Option (List Row) :=
  let main := main_reactions df
  let rgs := main.map Prod.fst
  let vals := main.map Prod.snd
  if (df.filter fun r => rgs.contains r.guid).length = vals.length then
    some ((assignVals df rgs vals).filter fun r => !(to_remove df).contains r.guid)
  else none

/-- Python `str.lstrip`-side of `strip` on the character list. -/
def pyLStrip (l : List Char) : List Char := l.dropWhile Char.isWhitespace

/-- Python `str.rstrip`-side of `strip` on the character list. -/
def pyRStrip (l : List Char) : List Char :=
  (l.reverse.dropWhile Char.isWhitespace).reverse

/-- Python `str.strip()` on the character list: drop whitespace from both
ends. -/
def pyStripList (l : List Char) : List Char := pyRStrip (pyLStrip l)

/-- Python `str.strip()`. -/
def pyStrip (s : String) : String := ⟨pyStripList s.data⟩

/-- Python truthiness of the nullable `text` cell: `None` and the empty
string are falsy, every other string is truthy. -/
def pyTruthy : Option String → Bool
  | none => false
  | some s => !s.isEmpty

/-- Python `sub in s` for a non-empty `sub`: the split on `sub` has more
than one part exactly when `sub` occurs in `s`. -/
def pyIn (sub s : String) : Bool := (s.splitOn sub).length != 1

/-- Python slice `s[6:-12]` (clamping exactly as Python does when the
string is short). -/
def pySlice6m12 (s : String) : String :=
  ⟨(s.data.take (s.data.length - 12)).drop 6⟩

/-- Textual form of the decoded `body` cell: an absent `body` becomes
`str(None)`, the string `"None"`, which contains none of the markers. -/
def pyBodyStr : Option String → String
  | some b => b
  | none => "None"

/-- The value of `msg_attributed_body` after `split("NSNumber")[0]`. -/
def pyMarker1 (body : Option String) : String :=
  ((pyBodyStr body).splitOn "NSNumber").headD ""

/-- The value of `msg_attributed_body` after the further
`split("NSString")[1]`. -/
def pyMarker2 (body : Option String) : String :=
  ((pyMarker1 body).splitOn "NSString").getD 1 ""

/-- The marker-splitting part of `parse_body` applied to the decoded
`body` string: `split("NSNumber")[0]`, then `split("NSString")[1]`, then
`split("NSDictionary")[0]`, then the slice `[6:-12]` and a strip; `none`
when any marker is missing (the Python function falls off the end and
returns `None`). -/
def parse_attributed (body : Option String) : Option String :=
  if pyIn "NSNumber" (pyBodyStr body) then
    if pyIn "NSString" (pyMarker1 body) then
      if pyIn "NSDictionary" (pyMarker2 body) then
        some (pyStrip
          (pySlice6m12 (((pyMarker2 body).splitOn "NSDictionary").headD "")))
      else none
    else none
  else none

/-- `parse_body(row)` from `update_text`: a truthy `text` is returned
stripped; otherwise the text is recovered from the archived `body`. -/
def parse_body (r : Row) : Option String :=
  if pyTruthy r.text then some (pyStrip (r.text.getD ""))
  else parse_attributed r.body

/-- A row after `update_text`: the `body` column is dropped
(`df.drop(columns=["body"])`), every other column is kept. -/
structure RowOut where
  id : Int
  guid : String
  thread_guid : Option String
  date : String
  text : Option String
  is_from_me : Nat
  is_sms : Nat
  reaction_guid : Option String
  reaction_type : Int
  deriving DecidableEq, Repr

/-- `update_text(df)`: `df["text"] = df.apply(parse_body, axis=1)` followed
by `df.drop(columns=["body"])`. -/
def update_text (df : List Row) : List RowOut :=
  df.map fun r =>
    { id := r.id, guid := r.guid, thread_guid := r.thread_guid, date := r.date,
      text := parse_body r, is_from_me := r.is_from_me, is_sms := r.is_sms,
      reaction_guid := r.reaction_guid, reaction_type := r.reaction_type }

/-- `get_thread_messages(df, thread_guid)`: the rows with
`guid == thread_guid` concatenated before the rows with
`thread_guid == thread_guid` (`pd.concat` keeps each selection's row
order). -/
def get_thread_messages (df : List RowOut) (thread_guid : String) : List RowOut :=
  (df.filter fun r => r.guid == thread_guid)
    ++ (df.filter fun r => r.thread_guid == some thread_guid)

/-- Convenience constructor for concrete test rows: unused columns get
inert values. -/
def mkRow (guid : String) (rg : Option String) (rt : Int) (fm sms : Nat)
    (text : Option String) : Row :=
  ⟨0, guid, none, "", none, text, fm, sms, rg, rt⟩

/-! ### Lemmas about the Deduplicator -/

lemma dropDupAux_sms_not_seen (l : List Row) :
    ∀ (seen : List String) (b : Row), b ∈ dropDupAux seen l → b.is_sms = 1 →
      b.guid ∉ seen := by
  induction l with
  | nil => intro seen b hb; simp [dropDupAux] at hb
  | cons r rs ih =>
    intro seen b hb hsms
    by_cases hc : r.guid ∈ seen ∧ r.is_sms = 1
    · simp only [dropDupAux, if_pos hc] at hb
      have := ih (r.guid :: seen) b hb hsms
      exact fun h => this (List.mem_cons_of_mem _ h)
    · simp only [dropDupAux, if_neg hc] at hb
      rcases List.mem_cons.mp hb with hb | hb
      · subst hb; exact fun h => hc ⟨h, hsms⟩
      · have := ih (r.guid :: seen) b hb hsms
        exact fun h => this (List.mem_cons_of_mem _ h)

lemma dropDupAux_pairwise (l : List Row) :
    ∀ seen : List String,
      List.Pairwise (fun a b => b.is_sms = 1 → a.guid ≠ b.guid)
        (dropDupAux seen l) := by
  induction l with
  | nil => intro seen; simp [dropDupAux]
  | cons r rs ih =>
    intro seen
    by_cases hc : r.guid ∈ seen ∧ r.is_sms = 1
    · simpa only [dropDupAux, if_pos hc] using ih (r.guid :: seen)
    · simp only [dropDupAux, if_neg hc]
      refine List.Pairwise.cons (fun b hb hsms => ?_) (ih (r.guid :: seen))
      have := dropDupAux_sms_not_seen rs (r.guid :: seen) b hb hsms
      exact fun h => this (h ▸ List.mem_cons_self _ _)

lemma dropDupAux_length_le (l : List Row) :
    ∀ seen : List String, (dropDupAux seen l).length ≤ l.length := by
  induction l with
  | nil => intro seen; simp [dropDupAux]
  | cons r rs ih =>
    intro seen
    by_cases hc : r.guid ∈ seen ∧ r.is_sms = 1
    · simp only [dropDupAux, if_pos hc]
      exact le_trans (ih (r.guid :: seen)) (Nat.le_succ _)
    · simp only [dropDupAux, if_neg hc, List.length_cons]
      exact Nat.succ_le_succ (ih (r.guid :: seen))

lemma dropDupAux_mono (l : List Row) :
    ∀ s s' : List String, s ⊆ s' → dropDupAux s' l = l → dropDupAux s l = l := by
  induction l with
  | nil => intro s s' _ _; rfl
  | cons r rs ih =>
    intro s s' hss h'
    by_cases hc' : r.guid ∈ s' ∧ r.is_sms = 1
    · exfalso
      rw [dropDupAux, if_pos hc'] at h'
      have hlen := congrArg List.length h'
      rw [List.length_cons] at hlen
      have := dropDupAux_length_le rs (r.guid :: s')
      omega
    · rw [dropDupAux, if_neg hc'] at h'
      have htail : dropDupAux (r.guid :: s') rs = rs := by
        exact (List.cons.injEq _ _ _ _).mp h' |>.2
      have hc : ¬(r.guid ∈ s ∧ r.is_sms = 1) := by
        intro ⟨hmem, hsms⟩; exact hc' ⟨hss hmem, hsms⟩
      rw [dropDupAux, if_neg hc]
      rw [ih (r.guid :: s) (r.guid :: s') (List.cons_subset_cons _ hss) htail]

lemma dropDupAux_idem (l : List Row) :
    ∀ seen : List String,
      dropDupAux seen (dropDupAux seen l) = dropDupAux seen l := by
  induction l with
  | nil => intro seen; rfl
  | cons r rs ih =>
    intro seen
    by_cases hc : r.guid ∈ seen ∧ r.is_sms = 1
    · simp only [dropDupAux, if_pos hc]
      exact dropDupAux_mono _ seen (r.guid :: seen)
        (List.subset_cons_self _ _) (ih (r.guid :: seen))
    · simp only [dropDupAux, if_neg hc]
      rw [ih (r.guid :: seen)]

lemma dropDupAux_filter_of_seen (g : String) (l : List Row) :
    ∀ seen : List String, g ∈ seen → (∀ r ∈ l, r.guid = g → r.is_sms = 1) →
      (dropDupAux seen l).filter (fun r => r.guid == g) = [] := by
  induction l with
  | nil => intro seen _ _; rfl
  | cons r rs ih =>
    intro seen hg hall
    by_cases hc : r.guid ∈ seen ∧ r.is_sms = 1
    · simp only [dropDupAux, if_pos hc]
      exact ih (r.guid :: seen) (List.mem_cons_of_mem _ hg)
        (fun x hx => hall x (List.mem_cons_of_mem _ hx))
    · simp only [dropDupAux, if_neg hc]
      have hrg : r.guid ≠ g := by
        intro he
        exact hc ⟨he ▸ hg, hall r (List.mem_cons_self _ _) he⟩
      rw [List.filter_cons_of_neg (by simp [hrg])]
      exact ih (r.guid :: seen) (List.mem_cons_of_mem _ hg)
        (fun x hx => hall x (List.mem_cons_of_mem _ hx))

lemma dropDupAux_filter_take (g : String) (l : List Row) :
    ∀ seen : List String, g ∉ seen → (∀ r ∈ l, r.guid = g → r.is_sms = 1) →
      (dropDupAux seen l).filter (fun r => r.guid == g)
        = (l.filter (fun r => r.guid == g)).take 1 := by
  induction l with
  | nil => intro seen _ _; rfl
  | cons r rs ih =>
    intro seen hg hall
    by_cases hrg : r.guid = g
    · have hsms : r.is_sms = 1 := hall r (List.mem_cons_self _ _) hrg
      have hc : ¬(r.guid ∈ seen ∧ r.is_sms = 1) := by
        intro ⟨hmem, _⟩; exact hg (hrg ▸ hmem)
      simp only [dropDupAux, if_neg hc]
      rw [List.filter_cons_of_pos (by simp [hrg]),
        List.filter_cons_of_pos (by simp [hrg])]
      rw [dropDupAux_filter_of_seen g rs (r.guid :: seen)
        (hrg ▸ List.mem_cons_self _ _)
        (fun x hx => hall x (List.mem_cons_of_mem _ hx))]
      simp
    · have hgseen : g ∉ r.guid :: seen := by
        intro h
        rcases List.mem_cons.mp h with h | h
        · exact hrg h.symm
        · exact hg h
      have htail := ih (r.guid :: seen) hgseen
        (fun x hx => hall x (List.mem_cons_of_mem _ hx))
      by_cases hc : r.guid ∈ seen ∧ r.is_sms = 1
      · simp only [dropDupAux, if_pos hc]
        rw [List.filter_cons_of_neg (by simp [hrg]), htail]
      · simp only [dropDupAux, if_neg hc]
        rw [List.filter_cons_of_neg (by simp [hrg]),
          List.filter_cons_of_neg (by simp [hrg]), htail]

/-- C6 claim, as stated: after `drop_duplicates`, no two remaining rows
share a `guid` — refuted: two rows that share a guid and both have
`is_sms = 0` (native channel) both survive, because only rows with
`is_sms == 1` are ever dropped. -/
theorem C6_counterexample :
    (drop_duplicates
        [mkRow "A" none 0 0 0 none, mkRow "A" none 0 0 0 (some "x")]).map
        (fun r => r.guid)
      = ["A", "A"] := by decide

/-- C6 amended: after `drop_duplicates`, no remaining row with
`is_sms = 1` shares its `guid` with any row preceding it in the output
(pairs of surviving native-channel rows may still share a guid). -/
theorem C6_sms_guid_pairwise (df : List Row) :
    List.Pairwise (fun a b => b.is_sms = 1 → a.guid ≠ b.guid)
      (drop_duplicates df) :=
  dropDupAux_pairwise df []

/-- C7 claim, as stated: when every row carrying a guid has `is_sms = 1`,
none of them is dropped — refuted: with two SMS rows sharing a guid the
second is dropped (the duplicate test never looks for a native
counterpart). -/
theorem C7_counterexample :
    (∀ r ∈ [mkRow "G" none 0 0 1 none, mkRow "G" none 0 0 1 (some "x")],
        r.is_sms = 1)
      ∧ drop_duplicates
          [mkRow "G" none 0 0 1 none, mkRow "G" none 0 0 1 (some "x")]
        = [mkRow "G" none 0 0 1 none] := by
  constructor
  · decide
  · decide

/-- C7 amended: when every row carrying guid `g` has `is_sms = 1`, the
Deduplicator keeps exactly the first such row and drops all later ones
(regardless of any native counterpart, which by hypothesis does not
exist). -/
theorem C7_all_sms_keeps_first (df : List Row) (g : String)
    (h : ∀ r ∈ df, r.guid = g → r.is_sms = 1) :
    (drop_duplicates df).filter (fun r => r.guid == g)
      = (df.filter (fun r => r.guid == g)).take 1 :=
  dropDupAux_filter_take g df [] (by simp) h

/-- Witness for C7: the amended theorem applied at the two-SMS-row table. -/
theorem C7_witness :
    (∀ r ∈ [mkRow "G" none 0 0 1 none, mkRow "G" none 0 0 1 (some "x")],
        r.guid = "G" → r.is_sms = 1)
      ∧ (drop_duplicates
            [mkRow "G" none 0 0 1 none, mkRow "G" none 0 0 1 (some "x")]).filter
            (fun r => r.guid == "G")
        = ([mkRow "G" none 0 0 1 none,
            mkRow "G" none 0 0 1 (some "x")].filter
            (fun r => r.guid == "G")).take 1 :=
  ⟨by decide, C7_all_sms_keeps_first _ "G" (by decide)⟩

/-- C8: the Deduplicator is idempotent: applying `drop_duplicates` to its
own output removes no further rows. -/
theorem C8_dedup_idempotent (df : List Row) :
    drop_duplicates (drop_duplicates df) = drop_duplicates df :=
  dropDupAux_idem df []

/-! ### Lemmas about `str.strip` and the Text Recoverer -/

lemma dropWhile_dropWhile (p : Char → Bool) (l : List Char) :
    (l.dropWhile p).dropWhile p = l.dropWhile p := by
  induction l with
  | nil => rfl
  | cons x xs ih =>
    by_cases h : p x = true
    · simp [List.dropWhile_cons, h, ih]
    · simp [List.dropWhile_cons, h]

lemma dropWhile_eq_self_head (p : Char → Bool) (x : Char) (xs : List Char)
    (h : (x :: xs).dropWhile p = x :: xs) : p x = false := by
  by_cases hp : p x = true
  · exfalso
    rw [List.dropWhile_cons, if_pos hp] at h
    have hle : (xs.dropWhile p).length ≤ xs.length :=
      (List.dropWhile_suffix p).length_le
    have := congrArg List.length h
    rw [List.length_cons] at this
    omega
  · simpa using hp

lemma pyRStrip_append (l : List Char) : ∃ t, l = pyRStrip l ++ t := by
  obtain ⟨u, hu⟩ := List.dropWhile_suffix (l := l.reverse) Char.isWhitespace
  refine ⟨u.reverse, ?_⟩
  have := congrArg List.reverse hu
  rw [List.reverse_append, List.reverse_reverse] at this
  exact this.symm

lemma pyRStrip_idem (l : List Char) : pyRStrip (pyRStrip l) = pyRStrip l := by
  unfold pyRStrip
  rw [List.reverse_reverse, dropWhile_dropWhile]

lemma pyLStrip_pyRStrip (l : List Char) (h : pyLStrip l = l) :
    pyLStrip (pyRStrip l) = pyRStrip l := by
  cases hr : pyRStrip l with
  | nil => rfl
  | cons x xs =>
    obtain ⟨t, ht⟩ := pyRStrip_append l
    rw [hr] at ht
    have hx : Char.isWhitespace x = false := by
      apply dropWhile_eq_self_head Char.isWhitespace x (xs ++ t)
      have : l = x :: (xs ++ t) := by simpa using ht
      rw [← this]
      exact h
    unfold pyLStrip
    rw [List.dropWhile_cons, if_neg (by simp [hx])]

lemma pyStripList_idem (l : List Char) :
    pyStripList (pyStripList l) = pyStripList l := by
  unfold pyStripList
  rw [pyLStrip_pyRStrip (pyLStrip l) (dropWhile_dropWhile _ l), pyRStrip_idem]

lemma pyStrip_idem (s : String) : pyStrip (pyStrip s) = pyStrip s := by
  unfold pyStrip
  exact congrArg String.mk (pyStripList_idem s.data)

lemma parse_attributed_shape (b : Option String) :
    parse_attributed b = none ∨ ∃ x, parse_attributed b = some (pyStrip x) := by
  unfold parse_attributed
  split
  · split
    · split
      · exact Or.inr ⟨_, rfl⟩
      · exact Or.inl rfl
    · exact Or.inl rfl
  · exact Or.inl rfl

lemma parse_body_shape (r : Row) :
    parse_body r = none ∨ ∃ x, parse_body r = some (pyStrip x) := by
  unfold parse_body
  split
  · exact Or.inr ⟨_, rfl⟩
  · exact parse_attributed_shape r.body

/-- C9 claim, as stated: after `update_text` every `text` cell is a
non-empty trimmed string or absent — refuted: a whitespace-only input
`text` is truthy in Python, so `parse_body` returns it stripped, which is
the present-but-empty string, not a non-empty string and not an absent
cell. -/
theorem C9_counterexample :
    (update_text [mkRow "A" none 0 0 0 (some " ")]).map (fun r => r.text)
      = [some ""] := by decide

/-- C9 amended: after `update_text` the raw `body` column is gone (the
result rows have no such column) and every `text` cell is either absent or
a string with no leading or trailing whitespace — which may be empty when
the original text was whitespace-only. -/
theorem C9_text_stripped_or_absent (df : List Row) (r : RowOut)
    (h : r ∈ update_text df) :
    r.text = none ∨ ∃ s, r.text = some s ∧ pyStrip s = s := by
  obtain ⟨r0, hr0, hmap⟩ := List.mem_map.mp h
  have htext : r.text = parse_body r0 := by rw [← hmap]
  rcases parse_body_shape r0 with hn | ⟨x, hx⟩
  · exact Or.inl (htext.trans hn)
  · exact Or.inr ⟨pyStrip x, htext.trans hx, pyStrip_idem x⟩

/-- Witness for C9: the amended theorem applied at a one-row table whose
text carries surrounding whitespace. -/
theorem C9_witness :
    ((⟨0, "A", none, "", some "hi", 0, 0, none, 0⟩ : RowOut)
        ∈ update_text [mkRow "A" none 0 0 0 (some "  hi ")])
      ∧ ((⟨0, "A", none, "", some "hi", 0, 0, none, 0⟩ : RowOut).text = none
          ∨ ∃ s, (⟨0, "A", none, "", some "hi", 0, 0, none, 0⟩ : RowOut).text
              = some s ∧ pyStrip s = s) :=
  ⟨by decide, C9_text_stripped_or_absent [mkRow "A" none 0 0 0 (some "  hi ")]
    _ (by decide)⟩

/-! ### Claims about the Reaction Resolver -/

/-- C1: on the two-row table `guid "A" / text "hi" / reaction_type 0` and
`guid "B" / reaction_guid "A" / reaction_type 2000 / is_from_me 0`,
`update_reactions` returns exactly the row with guid `"A"`, its
`reaction_type` overwritten to `2000` and its text unchanged. -/
theorem C1_reaction_pair :
    update_reactions
        [mkRow "A" none 0 0 0 (some "hi"), mkRow "B" (some "A") 2000 0 0 none]
      = some [mkRow "A" none 2000 0 0 (some "hi")] := by decide

/-- C2, evaluated at the failing input: the table holds reaction rows
`r1 -> A2` with code 2000 and `r2 -> A1` with code 2001, followed by the
target rows `A1` and `A2`.  The main reactions are `(A2, 2000)` then
`(A1, 2001)`, but `df.loc[mask, "reaction_type"] = values` aligns the raw
value array with the masked rows positionally (in row order `A1`, `A2`),
so `A1` receives 2000 — the code of the reaction that targets `A2` — and
`A2` receives 2001, the opposite of what the claim (and the function's own
docstring) requires. -/
theorem C2_positional_swap :
    main_reactions
        [mkRow "r1" (some "A2") 2000 0 0 none,
         mkRow "r2" (some "A1") 2001 0 0 none,
         mkRow "A1" none 0 0 0 none,
         mkRow "A2" none 0 0 0 none]
      = [("A2", 2000), ("A1", 2001)]
    ∧ update_reactions
        [mkRow "r1" (some "A2") 2000 0 0 none,
         mkRow "r2" (some "A1") 2001 0 0 none,
         mkRow "A1" none 0 0 0 none,
         mkRow "A2" none 0 0 0 none]
      = some [mkRow "A1" none 2000 0 0 none, mkRow "A2" none 2001 0 0 none] := by
  constructor
  · decide
  · decide

lemma assignVals_map_guid (df : List Row) :
    ∀ (rgs : List String) (vals : List Int),
      (assignVals df rgs vals).map (fun r => r.guid)
        = df.map (fun r => r.guid) := by
  induction df with
  | nil => intro rgs vals; rfl
  | cons r rs ih =>
    intro rgs vals
    by_cases h : r.guid ∈ rgs
    · cases vals with
      | nil => simp [assignVals, h, ih]
      | cons v vs => simp [assignVals, h, ih]
    · simp [assignVals, h, ih]

/-- C4 claim, as stated: the removal step drops exactly the rows whose
guid appears as a candidate's `reaction_guid` — refuted: on the C1 pair,
guid `"A"` does appear as the candidate's `reaction_guid`, yet the row
with guid `"A"` is the one row that survives, while the row with guid
`"B"` (which appears as no candidate's `reaction_guid`) is the one that is
dropped: the code filters on `to_remove = reactions["guid"]`, the guids of
the candidate rows themselves. -/
theorem C4_counterexample :
    update_reactions
        [mkRow "A" none 0 0 0 (some "hi"), mkRow "B" (some "A") 2000 0 0 none]
      = some [mkRow "A" none 2000 0 0 (some "hi")]
    ∧ "A" ∈ (reactions
        [mkRow "A" none 0 0 0 (some "hi"),
         mkRow "B" (some "A") 2000 0 0 none]).map (fun r => r.reaction_guid)
    ∧ "B" ∉ (reactions
        [mkRow "A" none 0 0 0 (some "hi"),
         mkRow "B" (some "A") 2000 0 0 none]).map (fun r => r.reaction_guid) := by
  refine ⟨by decide, by decide, by decide⟩

/-- C4 amended: whenever `update_reactions` returns a table, a guid value
is present in the output iff it is present in the input and is NOT the
`guid` of some candidate row (a row with non-absent `reaction_guid`, whose
guids make up `to_remove`); rows whose guid appears only as a
`reaction_guid` are untouched by the removal step. -/
theorem C4_removal_by_candidate_guid (df out : List Row)
    (h : update_reactions df = some out) (g : String) :
    (∃ r ∈ out, r.guid = g)
      ↔ ((∃ r ∈ df, r.guid = g) ∧ g ∉ to_remove df) := by
  simp only [update_reactions] at h
  split at h
  case isFalse => exact absurd h (by simp)
  case isTrue hlen =>
    have hout : out = (assignVals df ((main_reactions df).map Prod.fst)
        ((main_reactions df).map Prod.snd)).filter
          (fun r => !(to_remove df).contains r.guid) := (Option.some.inj h).symm
    subst hout
    have hguids := assignVals_map_guid df ((main_reactions df).map Prod.fst)
      ((main_reactions df).map Prod.snd)
    constructor
    · rintro ⟨r, hr, rfl⟩
      have hr' := List.mem_filter.mp hr
      have hmem : r.guid ∈ df.map (fun r => r.guid) := by
        rw [← hguids]; exact List.mem_map.mpr ⟨r, hr'.1, rfl⟩
      obtain ⟨q, hq, hqg⟩ := List.mem_map.mp hmem
      refine ⟨⟨q, hq, hqg⟩, ?_⟩
      simpa using hr'.2
    · rintro ⟨⟨r, hr, rfl⟩, hnot⟩
      have hmem : r.guid ∈ (assignVals df ((main_reactions df).map Prod.fst)
          ((main_reactions df).map Prod.snd)).map (fun r => r.guid) := by
        rw [hguids]; exact List.mem_map.mpr ⟨r, hr, rfl⟩
      obtain ⟨q, hq, hqg⟩ := List.mem_map.mp hmem
      refine ⟨q, List.mem_filter.mpr ⟨hq, ?_⟩, hqg⟩
      simp [hqg, hnot]

/-- Witness for C4: the amended theorem applied at the C1 pair with
`g = "B"`. -/
theorem C4_witness :
    (∃ r ∈ [mkRow "A" none 2000 0 0 (some "hi")], r.guid = "B")
      ↔ ((∃ r ∈ [mkRow "A" none 0 0 0 (some "hi"),
            mkRow "B" (some "A") 2000 0 0 none], r.guid = "B")
          ∧ "B" ∉ to_remove [mkRow "A" none 0 0 0 (some "hi"),
              mkRow "B" (some "A") 2000 0 0 none]) :=
  C4_removal_by_candidate_guid _ _ (by decide) "B"

lemma filter_contains_length_le_dedup (df : List Row) (rgs : List String)
    (hnd : (df.map (fun r => r.guid)).Nodup) :
    (df.filter fun r => rgs.contains r.guid).length ≤ rgs.dedup.length := by
  have h1 : ((df.filter fun r => rgs.contains r.guid).map
      (fun r => r.guid)).Nodup :=
    List.Nodup.sublist (List.Sublist.map _ (List.filter_sublist df)) hnd
  have h2 : ((df.filter fun r => rgs.contains r.guid).map
      (fun r => r.guid)) ⊆ rgs.dedup := by
    intro x hx
    obtain ⟨r, hr, rfl⟩ := List.mem_map.mp hx
    have hc := (List.mem_filter.mp hr).2
    rw [List.mem_dedup]
    simpa using hc
  calc (df.filter fun r => rgs.contains r.guid).length
      = ((df.filter fun r => rgs.contains r.guid).map
          (fun r => r.guid)).length := (List.length_map _ _).symm
    _ ≤ rgs.dedup.length := (h1.subperm h2).length_le

lemma dedup_length_lt_of_not_nodup (l : List String) (h : ¬l.Nodup) :
    l.dedup.length < l.length := by
  have hsub := List.dedup_sublist l
  rcases lt_or_eq_of_le hsub.length_le with hlt | heq
  · exact hlt
  · exact absurd (by rw [← hsub.eq_of_length heq]; exact List.nodup_dedup l) h

/-- C5 claim, as stated: with several reaction rows targeting the same
message, `update_reactions` silently resolves the clash and still returns
a table — refuted: rows `B` and `C` both react to `A`, both survive into
the main reactions, the boolean mask then selects the single row `A` while
the value array has two entries, and pandas raises a length-mismatch
`ValueError` (modelled as `none`): no table is returned. -/
theorem C5_counterexample :
    ((mkRow "B" (some "A") 2000 0 0 none).reaction_guid = some "A"
      ∧ (mkRow "C" (some "A") 2001 0 0 none).reaction_guid = some "A")
    ∧ update_reactions
        [mkRow "A" none 0 0 0 none, mkRow "B" (some "A") 2000 0 0 none,
         mkRow "C" (some "A") 2001 0 0 none] = none := by
  exact ⟨⟨rfl, rfl⟩, by decide⟩

/-- C5 amended: when the table's guids are unique and two main reactions
target the same guid (of a row that exists), the positional assignment is
length-mismatched, pandas raises, and `update_reactions` returns no table
at all — nothing is silently resolved.  The existence hypothesis keeps
the statement inside the region where pandas certainly raises. -/
theorem C5_duplicate_target_errors (df : List Row)
    (hnd : (df.map (fun r => r.guid)).Nodup)
    (hdup : ¬((main_reactions df).map Prod.fst).Nodup)
    (_hex : ∃ d ∈ df, d.guid ∈ (main_reactions df).map Prod.fst) :
    update_reactions df = none := by
  simp only [update_reactions]
  have hlt : (df.filter fun r =>
      ((main_reactions df).map Prod.fst).contains r.guid).length
      < ((main_reactions df).map Prod.snd).length := by
    have h1 := filter_contains_length_le_dedup df
      ((main_reactions df).map Prod.fst) hnd
    have h2 := dedup_length_lt_of_not_nodup _ hdup
    simp only [List.length_map] at h2 ⊢
    omega
  rw [if_neg (Nat.ne_of_lt hlt)]

/-- Witness for C5: the amended theorem applied at the three-row table
with two reactions to `A`. -/
theorem C5_witness :
    (([mkRow "A" none 0 0 0 none, mkRow "B" (some "A") 2000 0 0 none,
        mkRow "C" (some "A") 2001 0 0 none].map (fun r => r.guid)).Nodup
      ∧ ¬((main_reactions
            [mkRow "A" none 0 0 0 none, mkRow "B" (some "A") 2000 0 0 none,
             mkRow "C" (some "A") 2001 0 0 none]).map Prod.fst).Nodup
      ∧ (∃ d ∈ [mkRow "A" none 0 0 0 none, mkRow "B" (some "A") 2000 0 0 none,
            mkRow "C" (some "A") 2001 0 0 none],
          d.guid ∈ (main_reactions
            [mkRow "A" none 0 0 0 none, mkRow "B" (some "A") 2000 0 0 none,
             mkRow "C" (some "A") 2001 0 0 none]).map Prod.fst))
    ∧ update_reactions
        [mkRow "A" none 0 0 0 none, mkRow "B" (some "A") 2000 0 0 none,
         mkRow "C" (some "A") 2001 0 0 none] = none :=
  ⟨⟨by decide, by decide, by decide⟩,
    C5_duplicate_target_errors _ (by decide) (by decide) (by decide)⟩

/-- The main-reaction set as claim C3 words it (a definition following the
spec's sentence, for comparison with `main_reactions` from the source):
keep the outbound reactions whose own `reaction_guid` is absent from the
guids of `b` and exclude the complement. -/
def specMainReactionsC3 (df : List Row) : List (String × Int) :=
  ((out_reactions df).filter fun r =>
      !((b_rows df).map (fun d => d.guid)).contains r.reaction_guid).map
    fun r => (r.reaction_guid, r.reaction_type)

/-- C3 claim, as stated: kept main reactions = outbound reactions whose
`reaction_guid` is absent from `b`'s guids — refuted on the C1 pair: the
reaction `B -> A` has its `reaction_guid` `"A"` among `b`'s guids, so the
claim would exclude it and the main-reaction set would be empty, but the
code's `main_reactions` keeps exactly this reaction: the code excludes the
`text_message_reactions` (those whose `reaction_guid` is absent from `b`)
and keeps the complement. -/
theorem C3_counterexample :
    specMainReactionsC3
        [mkRow "A" none 0 0 0 (some "hi"), mkRow "B" (some "A") 2000 0 0 none]
      = []
    ∧ main_reactions
        [mkRow "A" none 0 0 0 (some "hi"), mkRow "B" (some "A") 2000 0 0 none]
      = [("A", 2000)] := by
  exact ⟨by decide, by decide⟩

lemma out_reactions_sourced {df : List Row} {r : RRow}
    (h : r ∈ out_reactions df) :
    ∃ p ∈ df, p.guid = r.guid ∧ p.reaction_guid = some r.reaction_guid
      ∧ p.reaction_type = r.reaction_type := by
  have h1 : r ∈ reactions df := List.mem_of_mem_filter h
  obtain ⟨p, hp, hpr⟩ := List.mem_filterMap.mp h1
  cases hrg : p.reaction_guid with
  | none => rw [hrg] at hpr; exact absurd hpr (by simp)
  | some rg =>
    rw [hrg] at hpr
    have he := Option.some.inj hpr
    refine ⟨p, hp, ?_, ?_, ?_⟩
    · rw [← he]
    · rw [← he, hrg]
    · rw [← he]

lemma mem_b_rows {df : List Row} {d : Row} :
    d ∈ b_rows df
      ↔ d ∈ df ∧ d.guid ∈ (out_reactions df).map (fun r => r.reaction_guid) := by
  unfold b_rows
  rw [List.mem_filter]
  simp

/-- C3 amended: with unique guids (the state the Reaction Resolver runs
in after deduplication of well-formed input), the roles are the opposite
of the claim: `main_reactions` keeps exactly the outbound reactions whose
`reaction_guid` DOES appear among `b`'s guids — equivalently, whose target
row exists in the table — and excludes the outbound reactions whose
`reaction_guid` is absent from `b` (the un-linkable
`text_message_reactions`). -/
theorem C3_main_reactions_linkable (df : List Row)
    (hnd : (df.map (fun r => r.guid)).Nodup) :
    main_reactions df
      = ((out_reactions df).filter fun r =>
          df.any fun d => d.guid == r.reaction_guid).map
        (fun r => (r.reaction_guid, r.reaction_type)) := by
  unfold main_reactions
  congr 1
  refine List.filter_congr ?_
  intro r hr
  obtain ⟨p, hpdf, hpg, hprg, _⟩ := out_reactions_sourced hr
  rw [Bool.eq_iff_iff]
  constructor
  · intro hL
    rw [List.any_eq_true]
    by_contra hno
    push_neg at hno
    have hptmr : p ∈ text_message_reactions df := by
      unfold text_message_reactions a_rows
      rw [List.mem_filter, List.mem_filter, hprg]
      refine ⟨⟨hpdf, ?_⟩, ?_⟩
      · simp only [List.contains_eq_any_beq, List.any_eq_true]
        exact ⟨r.guid, List.mem_map.mpr ⟨r, hr, rfl⟩, by simp [hpg]⟩
      · simp only [Bool.not_eq_true']
        rw [← Bool.not_eq_true]
        intro hcon
        have : r.reaction_guid ∈ (b_rows df).map (fun d => d.guid) := by
          simpa using hcon
        obtain ⟨d, hd, hdg⟩ := List.mem_map.mp this
        exact hno d (mem_b_rows.mp hd).1 (by simp [hdg])
    have hin : r.guid ∈ (text_message_reactions df).map (fun d => d.guid) :=
      List.mem_map.mpr ⟨p, hptmr, hpg⟩
    rw [Bool.not_eq_true'] at hL
    have : r.guid ∉ (text_message_reactions df).map (fun d => d.guid) := by
      simpa using hL
    exact this hin
  · intro hR
    obtain ⟨d, hd, hdg⟩ := List.any_eq_true.mp hR
    have hdg' : d.guid = r.reaction_guid := by simpa using hdg
    simp only [Bool.not_eq_true']
    rw [← Bool.not_eq_true]
    intro hcon
    have : r.guid ∈ (text_message_reactions df).map (fun q => q.guid) := by
      simpa using hcon
    obtain ⟨q, hq, hqg⟩ := List.mem_map.mp this
    have hqa : q ∈ a_rows df := List.mem_of_mem_filter hq
    have hqdf : q ∈ df := List.mem_of_mem_filter hqa
    have hqp : q = p :=
      List.inj_on_of_nodup_map hnd hqdf hpdf (by rw [hqg, hpg])
    have hqcond := (List.mem_filter.mp hq).2
    rw [hqp, hprg] at hqcond
    have hnb : r.reaction_guid ∉ (b_rows df).map (fun x => x.guid) := by
      simpa using hqcond
    refine hnb (List.mem_map.mpr ⟨d, ?_, hdg'⟩)
    exact mem_b_rows.mpr ⟨hd, by rw [hdg']; exact List.mem_map.mpr ⟨r, hr, rfl⟩⟩

/-- Witness for C3: the amended theorem applied at the C1 pair, whose
guids are unique. -/
theorem C3_witness :
    (([mkRow "A" none 0 0 0 (some "hi"),
        mkRow "B" (some "A") 2000 0 0 none].map (fun r => r.guid)).Nodup)
    ∧ main_reactions
        [mkRow "A" none 0 0 0 (some "hi"), mkRow "B" (some "A") 2000 0 0 none]
      = ((out_reactions
            [mkRow "A" none 0 0 0 (some "hi"),
             mkRow "B" (some "A") 2000 0 0 none]).filter fun r =>
          [mkRow "A" none 0 0 0 (some "hi"),
           mkRow "B" (some "A") 2000 0 0 none].any fun d =>
            d.guid == r.reaction_guid).map
        (fun r => (r.reaction_guid, r.reaction_type)) :=
  ⟨by decide, C3_main_reactions_linkable _ (by decide)⟩

/-! ### Claims about the Thread Selector -/

/-- Convenience constructor for concrete cleaned-table rows: only `guid`
and `thread_guid` vary, the other columns get inert values. -/
def mkOut (guid : String) (tg : Option String) : RowOut :=
  ⟨0, guid, tg, "", none, 0, 0, none, 0⟩

lemma filter_append_perm_or {α : Type} (p q : α → Bool) (l : List α)
    (h : ∀ x ∈ l, ¬(p x = true ∧ q x = true)) :
    (l.filter p ++ l.filter q).Perm (l.filter fun x => p x || q x) := by
  induction l with
  | nil => simp
  | cons x xs ih =>
    have ih' := ih (fun y hy => h y (List.mem_cons_of_mem _ hy))
    cases hp : p x <;> cases hq : q x
    · rw [List.filter_cons_of_neg (by simp [hp]),
        List.filter_cons_of_neg (by simp [hq]),
        List.filter_cons_of_neg (by simp [hp, hq])]
      exact ih'
    · rw [List.filter_cons_of_neg (by simp [hp]), List.filter_cons_of_pos hq,
        List.filter_cons_of_pos (by simp [hq])]
      exact List.Perm.trans List.perm_middle (ih'.cons x)
    · rw [List.filter_cons_of_pos hp, List.filter_cons_of_neg (by simp [hq]),
        List.filter_cons_of_pos (by simp [hp])]
      exact ih'.cons x
    · exact absurd ⟨hp, hq⟩ (h x (List.mem_cons_self _ _))

/-- C10 claim, as stated: when no row satisfies both conditions the
result is exactly the matching rows, each once, in their original
relative order — refuted: with a reply row (thread_guid `"T"`) placed
before the root row (guid `"T"`), no row satisfies both conditions, yet
the result lists the root first, not the rows in their original relative
order. -/
theorem C10_counterexample :
    (∀ r ∈ [mkOut "x" (some "T"), mkOut "T" none],
        ¬(r.guid = "T" ∧ r.thread_guid = some "T"))
    ∧ get_thread_messages [mkOut "x" (some "T"), mkOut "T" none] "T"
        ≠ [mkOut "x" (some "T"), mkOut "T" none].filter
            (fun r => r.guid == "T" || r.thread_guid == some "T") := by
  exact ⟨by decide, by decide⟩

/-- C10 amended: `get_thread_messages` returns the rows with
`guid = t` concatenated before the rows with `thread_guid = t`, without
deduplication: a row matching both conditions appears at least twice;
when no row matches both, the result is the matching rows, each exactly
as often as in the table (a permutation of the matching subsequence, with
the `guid` matches first) — but not necessarily in their original
relative order across the two selections. -/
theorem C10_thread_selection (df : List RowOut) (t : String) :
    get_thread_messages df t
        = (df.filter fun r => r.guid == t)
          ++ (df.filter fun r => r.thread_guid == some t)
    ∧ (∀ r ∈ df, r.guid = t → r.thread_guid = some t →
        2 ≤ (get_thread_messages df t).count r)
    ∧ ((∀ r ∈ df, ¬(r.guid = t ∧ r.thread_guid = some t)) →
        (get_thread_messages df t).Perm
          (df.filter fun r => r.guid == t || r.thread_guid == some t)) := by
  refine ⟨rfl, ?_, ?_⟩
  · intro r hr hg ht
    unfold get_thread_messages
    rw [List.count_append]
    have h1 : ((df.filter fun r => r.guid == t).count r = df.count r) :=
      List.count_filter (by simp [hg])
    have h2 : ((df.filter fun r => r.thread_guid == some t).count r
        = df.count r) :=
      List.count_filter (by simp [ht])
    have h3 : 0 < df.count r := List.count_pos_iff.mpr hr
    omega
  · intro hno
    unfold get_thread_messages
    refine filter_append_perm_or _ _ df ?_
    intro x hx hpq
    exact hno x hx ⟨by simpa using hpq.1, by simpa using hpq.2⟩

/-- Witness for C10: the amended theorem applied at a one-row table whose
row is its own thread root (it appears twice), and at the four-row
scenario table root/replies/unrelated (the result is a permutation of the
matching rows). -/
theorem C10_witness :
    2 ≤ (get_thread_messages [mkOut "T" (some "T")] "T").count
        (mkOut "T" (some "T"))
    ∧ (get_thread_messages
        [mkOut "T" none, mkOut "R1" (some "T"), mkOut "R2" (some "T"),
         mkOut "x" none] "T").Perm
        ([mkOut "T" none, mkOut "R1" (some "T"), mkOut "R2" (some "T"),
          mkOut "x" none].filter
          (fun r => r.guid == "T" || r.thread_guid == some "T")) :=
  ⟨(C10_thread_selection [mkOut "T" (some "T")] "T").2.1 _ (by decide) rfl rfl,
   (C10_thread_selection [mkOut "T" none, mkOut "R1" (some "T"),
      mkOut "R2" (some "T"), mkOut "x" none] "T").2.2 (by decide)⟩
